import Mathlib

/-
Verification development for the landing-page behavior script (script.js).

The script rewrites the call-to-action destination URL by merging whitelisted
query parameters, fires Meta Pixel conversion events gated by timers, scroll
depth and clicks, runs a 24-hour wrap-around countdown, and drives an image
carousel. The definitions below are shallow embeddings of the corresponding
JavaScript functions; theorems establish the behavioral properties of those
embeddings.

Modeling conventions:
  - URLSearchParams is modeled as an ordered association list
    (List (String, String)); URLSearchParams.get returns the FIRST matching
    value, URLSearchParams.set replaces the first match (deleting later
    duplicates) or appends.
  - A plain JavaScript object used as a string map is also an association
    list, but property reads take the LAST write, so object lookup (objGet)
    returns the LAST matching entry; object literal spread syntax appends
    the spread entries after the literal fields.
  - JavaScript truthiness of a possibly-absent string is modeled by
    jsTruthy: absent (none) and the empty string are falsy.
-/

/-- Model of URLSearchParams.has: does some entry have key k. -/
def paramsHas (ps : List (String × String)) (k : String) : Bool :=
  ps.any (fun p => p.1 == k)

/-- Model of URLSearchParams.get: the first value stored under k. -/
def paramsGet (ps : List (String × String)) (k : String) : Option String :=
  (ps.find? (fun p => p.1 == k)).map (fun p => p.2)

/-- Model of URLSearchParams.set: replace the first entry with key k
(removing later duplicates of k), or append the pair if k is absent. -/
def paramsSet : List (String × String) → String → String → List (String × String)
  | [], k, v => [(k, v)]
  | p :: rest, k, v =>
    if p.1 == k then (k, v) :: rest.filter (fun q => !(q.1 == k))
    else p :: paramsSet rest k v

/-- Model of a parsed URL: the part before the query string, plus its
search parameters. -/
structure URLModel where
  base : String
  searchParams : List (String × String)
deriving DecidableEq

/-- The whitelist of parameters buildTrackedUrl may copy from the source
page (script.js, allowedParams). -/
def allowedParams : List String :=
  ["utm_source", "utm_medium", "utm_campaign", "utm_term", "utm_content",
   "fbclid", "gclid", "ch", "fbPixelId"]

/-- One iteration of the copy loop in buildTrackedUrl: if the source page
has the key and the destination does not already define it, set it on the
destination (script.js lines 217-224). -/
def mergeStep (sourceParams : List (String × String))
    (acc : List (String × String)) (key : String) : List (String × String) :=
  if paramsHas sourceParams key then
    if paramsHas acc key then acc
    else paramsSet acc key ((paramsGet sourceParams key).getD "")
  else acc

/-- Model of buildTrackedUrl (script.js lines 207-227): fold the copy step
over the fixed whitelist, starting from the destination template parameters. -/
def buildTrackedUrl (url : URLModel) (sourceParams : List (String × String)) : URLModel :=
  { url with
    searchParams := allowedParams.foldl (mergeStep sourceParams) url.searchParams }

/-- Destination template that already defines a non-whitelisted key. -/
def destFoo : URLModel := { base := "https://d.example", searchParams := [("foo", "1")] }

/-- Source page parameters carrying the same non-whitelisted key. -/
def srcFoo : List (String × String) := [("foo", "2")]

/-- The concrete destination template of applyCtaUrl (script.js line 230). -/
def destCta : URLModel :=
  { base := "https://x9a8rje.com",
    searchParams := [("ch", "6825"), ("fbPixelId", "1032961382302053")] }

/-- A sample source-page query string: a whitelisted key the template lacks,
a non-whitelisted key, and a whitelisted key the template already defines. -/
def srcCta : List (String × String) :=
  [("utm_source", "ig"), ("foo", "bar"), ("ch", "9")]

/-- State of the CTA click handler around the redirect: the one-shot flag
and the list of navigations performed so far (script.js lines 363-377). -/
structure RedirectState where
  redirected : Bool
  navigations : List String
deriving DecidableEq

/-- Model of performRedirect (script.js lines 365-371): navigate to the
destination only if the one-shot flag is still clear. -/
def performRedirect (destinationUrl : String) (s : RedirectState) : RedirectState :=
  if s.redirected then s
  else { redirected := true, navigations := s.navigations ++ [destinationUrl] }

/-- Run a list of scheduled timer callbacks in firing order. -/
def runTimers (timers : List (RedirectState → RedirectState)) (s : RedirectState) : RedirectState :=
  timers.foldl (fun s f => f s) s

/-- The two timers scheduled by the click handler: the 300ms primary
redirect and the 1000ms fallback (script.js lines 374-377). Both callbacks
are the same guarded performRedirect closure. -/
def clickTimers (destinationUrl : String) : List (RedirectState → RedirectState) :=
  [performRedirect destinationUrl, performRedirect destinationUrl]

/-- Redirect state at the moment the click handler runs: flag clear, no
navigation performed yet. -/
def initialRedirectState : RedirectState := { redirected := false, navigations := [] }

/-- Model of the countdown tick (script.js lines 422-429): at or below zero
reset to 86400, otherwise decrement. -/
def tick (timeLeft : Int) : Int :=
  if timeLeft ≤ 0 then 24 * 60 * 60 else timeLeft - 1

/-- Lead-tracking state of setupMetaPixelTracking (script.js lines 294-333):
the three flags, whether the scroll listener is still attached, and how many
Lead events have been fired. -/
structure LeadState where
  leadTracked : Bool
  scrollThreshold : Bool
  timeThreshold : Bool
  scrollListenerAttached : Bool
  leadsFired : Nat
deriving DecidableEq

/-- Events the lead tracker can observe: a scroll to a given scrollY, or the
10-second dwell timer firing. -/
inductive LeadEvent where
  | scroll (scrollY : Nat)
  | timer
deriving DecidableEq

/-- Model of checkLeadConditions (script.js lines 314-331): fire the Lead
event once when either threshold flag is set, then detach the scroll
listener. -/
def checkLeadConditions (s : LeadState) : LeadState :=
  if !s.leadTracked && (s.scrollThreshold || s.timeThreshold) then
    { s with leadTracked := true, leadsFired := s.leadsFired + 1,
             scrollListenerAttached := false }
  else s

/-- Model of handleScroll (script.js lines 299-305); the listener body runs
only while the listener is attached. -/
def handleScroll (scrollY : Nat) (s : LeadState) : LeadState :=
  if s.scrollListenerAttached then
    if !s.scrollThreshold && decide (300 < scrollY) then
      checkLeadConditions { s with scrollThreshold := true }
    else s
  else s

/-- Model of the 10-second dwell timer callback (script.js lines 308-312). -/
def dwellTimerFire (s : LeadState) : LeadState :=
  checkLeadConditions { s with timeThreshold := true }

/-- Dispatch one observed event to the corresponding handler. -/
def leadStep : LeadEvent → LeadState → LeadState
  | LeadEvent.scroll y, s => handleScroll y s
  | LeadEvent.timer, s => dwellTimerFire s

/-- Lead-tracking state right after setupMetaPixelTracking instals the
handlers: nothing tracked, scroll listener attached. -/
def initLeadState : LeadState :=
  { leadTracked := false, scrollThreshold := false, timeThreshold := false,
    scrollListenerAttached := true, leadsFired := 0 }

/-- Run the lead tracker over a sequence of observed events. -/
def runLead (evs : List LeadEvent) : LeadState :=
  evs.foldl (fun s e => leadStep e s) initLeadState

/-- Does an event make one of the two Lead conditions true: a scroll past
300 pixels or the dwell timer. -/
def isEngagementTrigger : LeadEvent → Bool
  | LeadEvent.scroll y => decide (300 < y)
  | LeadEvent.timer => true

/-- Outcome of the fbq polling loop: how many readiness checks ran, and
whether the promise resolved (ok) or rejected (error). -/
structure WaitResult where
  checks : Nat
  outcome : Except String Unit

/-- Model of checkFbq inside waitForFbq (script.js lines 141-158): increment
the attempt counter, resolve if the pixel is ready at this attempt, reject
once maxAttempts is reached, otherwise schedule another check. The readiness
of the external library at the n-th check is the oracle ready n. -/
def checkFbq (ready : Nat → Bool) (maxAttempts : Nat) (attempts : Nat) : WaitResult :=
  if ready (attempts + 1) then { checks := attempts + 1, outcome := Except.ok () }
  else if maxAttempts ≤ attempts + 1 then
    { checks := attempts + 1, outcome := Except.error "Meta Pixel timeout" }
  else checkFbq ready maxAttempts (attempts + 1)
termination_by maxAttempts - attempts
decreasing_by omega

/-- Model of waitForFbq with its default arguments (maxAttempts = 50,
script.js line 137). -/
def waitForFbq (ready : Nat → Bool) : WaitResult :=
  checkFbq ready 50 0

/-- Number of trackMetaPixelEvent calls a page view performs, as set up by
setupMetaPixelTracking (script.js lines 254-400). The try/catch around the
awaited waitForFbq is the error match arm: a rejection is caught and the
function returns normally with no tracking performed, so the result type
carries no exception. On success with the CTA present: one ViewContent, the
Lead events fired by the observed scroll/dwell events, and one AddToCart if
the CTA was clicked. A missing CTA button returns early. -/
def setupTrackAttempts (ready : Nat → Bool) (ctaPresent : Bool)
    (evs : List LeadEvent) (ctaClicked : Bool) : Nat :=
  match (waitForFbq ready).outcome with
  | Except.error _ => 0
  | Except.ok _ =>
    if ctaPresent then
      1 + (runLead evs).leadsFired + (if ctaClicked then 1 else 0)
    else 0

/-- Observable behavior of the external fbq global inside one
trackMetaPixelEvent call: absent, throwing when invoked, or succeeding. -/
inductive FbqBehavior where
  | undef
  | throws (msg : String)
  | succeeds
deriving DecidableEq

/-- The try block of trackMetaPixelEvent (script.js lines 177-186): the
possibly-throwing result, paired with how many times fbq was invoked.
When fbq is undefined the guard returns false before any invocation. -/
def trackTryBody (fbq : FbqBehavior) : Except String Bool × Nat :=
  match fbq with
  | FbqBehavior.undef => (Except.ok false, 0)
  | FbqBehavior.throws msg => (Except.error msg, 1)
  | FbqBehavior.succeeds => (Except.ok true, 1)

/-- Model of trackMetaPixelEvent (script.js lines 176-191): run the try
block and let the catch arm turn any thrown error into the return value
false. The function is total: its result type carries no exception. -/
def trackMetaPixelEvent (fbq : FbqBehavior) : Bool × Nat :=
  match trackTryBody fbq with
  | (Except.ok r, n) => (r, n)
  | (Except.error _, n) => (false, n)

/-- Carousel DOM state: the active flag of each image, the active flag of
each indicator, and the closed-over currentIndex (script.js lines 438-527). -/
structure CarouselState where
  images : List Bool
  indicators : List Bool
  currentIndex : Nat
deriving DecidableEq

/-- The forEach loops of showImage that remove the active class from every
image and indicator (script.js lines 451-452). -/
def clearActive (l : List Bool) : List Bool :=
  l.map (fun _ => false)

/-- The guarded activation in showImage: if (images[index]) add the class
(script.js lines 455-456). List.set is the identity when index is out of
range, matching the guard. -/
def setActiveAt (l : List Bool) (i : Nat) : List Bool :=
  l.set i true

/-- Model of showImage (script.js lines 449-459). -/
def showImage (s : CarouselState) (index : Nat) : CarouselState :=
  { images := setActiveAt (clearActive s.images) index,
    indicators := setActiveAt (clearActive s.indicators) index,
    currentIndex := index }

/-- Model of nextImage (script.js lines 461-464). -/
def nextImage (s : CarouselState) : CarouselState :=
  showImage s ((s.currentIndex + 1) % s.images.length)

/-- Model of prevImage (script.js lines 466-469). JavaScript arithmetic on
currentIndex - 1 can go negative, so it is carried out on Int; the JS
remainder of the nonnegative operands agrees with Int.emod. -/
def prevImage (s : CarouselState) : CarouselState :=
  showImage s
    ((((s.currentIndex : Int) - 1 + (s.images.length : Int)) % (s.images.length : Int)).toNat)

/-- The manual carousel operations: arrow clicks, indicator clicks, and the
left/right keyboard arrows (script.js lines 485-516); the auto-rotation
timer performs the same step as the right arrow. -/
inductive CarouselOp where
  | next
  | prev
  | indicator (k : Nat)
  | keyLeft
  | keyRight
deriving DecidableEq

/-- Dispatch one carousel operation to the handler the script registers. -/
def applyCarouselOp : CarouselOp → CarouselState → CarouselState
  | CarouselOp.next, s => nextImage s
  | CarouselOp.prev, s => prevImage s
  | CarouselOp.indicator k, s => showImage s k
  | CarouselOp.keyLeft, s => prevImage s
  | CarouselOp.keyRight, s => nextImage s

/-- Run a sequence of carousel operations. -/
def runCarousel (ops : List CarouselOp) (s : CarouselState) : CarouselState :=
  ops.foldl (fun s op => applyCarouselOp op s) s

/-- An indicator click can only pass an index below the indicator count;
with n images and n indicators that bound is n. All other operations carry
no index of their own. -/
def validCarouselOp (n : Nat) : CarouselOp → Bool
  | CarouselOp.indicator k => decide (k < n)
  | _ => true

/-- Modelled from the spec: the initial carousel markup lives in the HTML
page, which is not among the source files; per the spec, exactly one image
and one indicator are active initially, namely the first, and the script
initializes currentIndex to 0 (script.js line 446). -/
def initCarouselState (n : Nat) : CarouselState :=
  showImage
    { images := List.replicate n false, indicators := List.replicate n false,
      currentIndex := 0 } 0

/-- A sample session on a 3-image carousel. -/
def carouselOpsEx : List CarouselOp :=
  [CarouselOp.next, CarouselOp.prev, CarouselOp.indicator 2, CarouselOp.keyLeft]

/-- A 3-image carousel at index 0. -/
def carouselStateA : CarouselState := initCarouselState 3

/-- A 3-image carousel at index 2. -/
def carouselStateB : CarouselState := showImage (initCarouselState 3) 2

/-- Inputs of one page view that the tracking code reads: the query
parameters of the current URL, the referrer, and the clock reading used for
the tracking timestamp. -/
structure PageEnv where
  search : List (String × String)
  referrer : String
  timestamp : String

/-- JavaScript truthiness of a possibly-absent string property: undefined
and the empty string are falsy. -/
def jsTruthy : Option String → Bool
  | none => false
  | some s => !(s == "")

/-- Model of String.prototype.includes: some suffix of s starts with pat. -/
def strContains (s pat : String) : Bool :=
  (List.range (s.length + 1)).any (fun i => (s.drop i).startsWith pat)

/-- Model of String.prototype.toLowerCase as a structural character map
(ASCII case folding, matching the character-level lowering of the
library). -/
def jsToLower (s : String) : String :=
  String.mk (s.data.map Char.toLower)

/-- Lookup in a plain JavaScript object used as a string map: the LAST
write to a key wins. -/
def objGet : List (String × String) → String → Option String
  | [], _ => none
  | p :: rest, k =>
    match objGet rest k with
    | some v => some v
    | none => if p.1 == k then some p.2 else none

/-- Property assignment obj[k] = v on a JavaScript object: overwrite the
entry if the key exists, otherwise append it. -/
def objInsert (m : List (String × String)) (k v : String) : List (String × String) :=
  if paramsHas m k then m.map (fun p => if p.1 == k then (k, v) else p)
  else m ++ [(k, v)]

/-- The five standard UTM keys scanned by getUtmParameters
(script.js line 30). -/
def utmKeys : List String :=
  ["utm_source", "utm_medium", "utm_campaign", "utm_term", "utm_content"]

/-- Every key getUtmParameters can ever store: the five UTM keys plus the
tracking timestamp. -/
def utmUniverse : List String :=
  ["utm_source", "utm_medium", "utm_campaign", "utm_term", "utm_content",
   "tracking_timestamp"]

/-- One iteration of the utmKeys.forEach loop in getUtmParameters
(script.js lines 32-36). -/
def utmCollectStep (search : List (String × String))
    (acc : List (String × String)) (key : String) : List (String × String) :=
  if paramsHas search key then objInsert acc key ((paramsGet search key).getD "")
  else acc

/-- The object holding the standard UTM parameters copied from the query
string (script.js lines 27-36). -/
def utmBase (search : List (String × String)) : List (String × String) :=
  utmKeys.foldl (utmCollectStep search) []

/-- The idiom utmParams.utm_medium = utmParams.utm_medium or-else d
(script.js lines 45, 48, 51): keep a truthy existing value, otherwise
store the default. -/
def setMediumDefault (m : List (String × String)) (d : String) : List (String × String) :=
  objInsert m "utm_medium"
    (match objGet m "utm_medium" with
     | some s => if s == "" then d else s
     | none => d)

/-- The referrer-based auto-detection block of getUtmParameters
(script.js lines 39-53), which runs only when utm_source is falsy. -/
def autoDetect (m : List (String × String)) (referrer : String) : List (String × String) :=
  if jsTruthy (objGet m "utm_source") then m
  else
    if strContains (jsToLower referrer) "instagram.com" || strContains (jsToLower referrer) "ig.me" then
      setMediumDefault (objInsert m "utm_source" "instagram") "social"
    else if strContains (jsToLower referrer) "facebook.com" || strContains (jsToLower referrer) "fb.me" then
      setMediumDefault (objInsert m "utm_source" "facebook") "social"
    else if strContains (jsToLower referrer) "youtube.com" || strContains (jsToLower referrer) "twitch.tv"
        || strContains (jsToLower referrer) "live" then
      setMediumDefault (objInsert m "utm_source" "livestream") "video"
    else m

/-- The timestamp enrichment of getUtmParameters (script.js lines 56-58):
added only when at least one parameter was collected. The object never
holds duplicate keys, so its length is its number of keys. -/
def addTimestamp (m : List (String × String)) (ts : String) : List (String × String) :=
  if 0 < m.length then objInsert m "tracking_timestamp" ts else m

/-- Model of getUtmParameters (script.js lines 25-61). -/
def getUtmParameters (env : PageEnv) : List (String × String) :=
  addTimestamp (autoDetect (utmBase env.search) env.referrer) env.timestamp

/-- Model of the primarySource computation of getTrafficSourceInfo
(script.js lines 76-86). JavaScript truthiness of the referrer string is
nonemptiness. -/
def primarySource (env : PageEnv) : String :=
  if jsTruthy (objGet (getUtmParameters env) "utm_source") then
    jsToLower ((objGet (getUtmParameters env) "utm_source").getD "")
  else if env.referrer == "" then "direct"
  else if strContains env.referrer "instagram" then "instagram"
  else if strContains env.referrer "facebook" then "facebook"
  else if strContains env.referrer "youtube" || strContains env.referrer "twitch" then "livestream"
  else "referral"

/-- The five classifications the specification names for primarySource. -/
def specSources : List String :=
  ["direct", "instagram", "facebook", "livestream", "referral"]

/-- The name field of sourceConfigs[primarySource] with the
sourceConfigs.direct fallback (script.js lines 89-116); only the name field
flows into the event payloads. Inherited prototype properties of the config
object are not modeled. -/
def sourceDetailsName (ps : String) : String :=
  if ps == "livestream" then "Live Stream"
  else if ps == "instagram" then "Instagram"
  else if ps == "facebook" then "Facebook"
  else "Direct"

/-- A query string whose explicit utm_source is not one of the five
spec classifications. -/
def envNewsletter : PageEnv :=
  { search := [("utm_source", "newsletter")], referrer := "", timestamp := "t0" }

/-- The fixed descriptive fields of the ViewContent payload
(script.js lines 278-285); the numeric literal payload values elsewhere are
written as their source text, since only key collisions matter here. -/
def viewContentFixed (env : PageEnv) : List (String × String) :=
  [("content_name", "PopDez Landing Page"),
   ("content_category", "Gaming Landing"),
   ("content_type", "product"),
   ("currency", "BRL"),
   ("traffic_source", primarySource env),
   ("source_name", sourceDetailsName (primarySource env))]

/-- The ViewContent payload: the fixed fields with the UTM map spread after
them (script.js lines 278-286). -/
def viewContentData (env : PageEnv) : List (String × String) :=
  viewContentFixed env ++ getUtmParameters env

/-- The fixed descriptive fields of the Lead payload (script.js
lines 317-323); engagement_type depends on which threshold fired first. -/
def leadFixed (env : PageEnv) (scrollFirst : Bool) : List (String × String) :=
  [("content_name", "PopDez Interest"),
   ("content_category", "Gaming Lead"),
   ("currency", "BRL"),
   ("traffic_source", primarySource env),
   ("source_name", sourceDetailsName (primarySource env)),
   ("engagement_type", if scrollFirst then "scroll" else "time")]

/-- The Lead payload with the UTM map spread last (script.js lines 317-325). -/
def leadData (env : PageEnv) (scrollFirst : Bool) : List (String × String) :=
  leadFixed env scrollFirst ++ getUtmParameters env

/-- The fixed descriptive fields of the AddToCart payload
(script.js lines 342-351); value: 1.00 is written as its source text. -/
def addToCartFixed (env : PageEnv) : List (String × String) :=
  [("content_name", "PopDez Bonus Exclusivo"),
   ("content_category", "Gaming Bonus"),
   ("content_type", "product"),
   ("currency", "BRL"),
   ("value", "1.00"),
   ("traffic_source", primarySource env),
   ("source_name", sourceDetailsName (primarySource env)),
   ("conversion_step", "cta_click")]

/-- The AddToCart payload with the UTM map spread last
(script.js lines 342-352). -/
def addToCartData (env : PageEnv) : List (String × String) :=
  addToCartFixed env ++ getUtmParameters env

/-- Helper: after the first application, performRedirect has set the
one-shot flag and performed the single navigation; further applications
change nothing. -/
theorem performRedirect_iterate (destinationUrl : String) (n : Nat) :
    (performRedirect destinationUrl)^[n + 1] initialRedirectState =
      { redirected := true, navigations := [destinationUrl] } := by
  induction n with
  | zero => rfl
  | succ m ih =>
    rw [Function.iterate_succ_apply', ih]
    rfl

/-- C2: after a CTA click the navigation to the stored destination URL
happens exactly once: running the 300ms and the 1000ms timer callbacks in
order performs the single navigation, and any positive number of
performRedirect invocations still leaves exactly that one navigation. -/
theorem cta_redirect_exactly_once (destinationUrl : String) :
    (runTimers (clickTimers destinationUrl) initialRedirectState).navigations
      = [destinationUrl] ∧
    ∀ n : Nat,
      ((performRedirect destinationUrl)^[n + 1] initialRedirectState).navigations
        = [destinationUrl] := by
  refine ⟨rfl, fun n => ?_⟩
  rw [performRedirect_iterate]

/-- C8: the countdown tick resets to 86400 at or below zero and otherwise
decrements by one; in particular tick 0 = 86400, and iterating from 86400
stays within the interval from 0 to 86400. -/
theorem countdown_tick_behavior :
    (∀ t : Int, t ≤ 0 → tick t = 86400) ∧
    (∀ t : Int, 0 < t → tick t = t - 1) ∧
    tick 0 = 86400 ∧
    (∀ n : Nat, 0 ≤ tick^[n] (86400 : Int) ∧ tick^[n] (86400 : Int) ≤ 86400) := by
  refine ⟨fun t ht => ?_, fun t ht => ?_, by norm_num [tick], fun n => ?_⟩
  · unfold tick
    rw [if_pos ht]
    norm_num
  · unfold tick
    rw [if_neg (by omega)]
  · induction n with
    | zero => simp
    | succ m ih =>
      rw [Function.iterate_succ_apply']
      generalize hx : tick^[m] (86400 : Int) = x at ih
      by_cases hx0 : x ≤ 0
      · unfold tick
        rw [if_pos hx0]
        norm_num
      · unfold tick
        rw [if_neg hx0]
        omega

/-- Witness for C8 at the concrete counter values 0 and 5. -/
theorem countdown_tick_behavior_witness :
    ((0 : Int) ≤ 0 ∧ tick 0 = 86400) ∧ ((0 : Int) < 5 ∧ tick 5 = 4) :=
  ⟨⟨by norm_num, countdown_tick_behavior.1 0 (by norm_num)⟩,
   ⟨by norm_num, (countdown_tick_behavior.2.1 5 (by norm_num)).trans (by norm_num)⟩⟩

/-- C10: trackMetaPixelEvent is total (its result type carries no
exception); it returns true exactly when fbq was invoked and completed, it
performs no invocation when fbq is undefined, and an invocation that throws
yields false after exactly one invocation. -/
theorem trackMetaPixelEvent_total_behavior (fbq : FbqBehavior) :
    ((trackMetaPixelEvent fbq).1 = true ↔ fbq = FbqBehavior.succeeds) ∧
    (fbq = FbqBehavior.undef → (trackMetaPixelEvent fbq).2 = 0) ∧
    ((trackMetaPixelEvent fbq).2 = if fbq = FbqBehavior.undef then 0 else 1) ∧
    (∀ msg, trackMetaPixelEvent (FbqBehavior.throws msg) = (false, 1)) := by
  cases fbq <;> simp [trackMetaPixelEvent, trackTryBody]

/-- Witness for C10: with fbq undefined, no invocation is performed. -/
theorem trackMetaPixelEvent_total_behavior_witness :
    FbqBehavior.undef = FbqBehavior.undef ∧
    (trackMetaPixelEvent FbqBehavior.undef).2 = 0 :=
  ⟨rfl, (trackMetaPixelEvent_total_behavior FbqBehavior.undef).2.1 rfl⟩

/-- Counterexample to C1 as stated: the non-whitelisted source parameter
foo is present in the merged result, because the destination template
itself defines foo (with the template value, which is kept). -/
theorem buildTrackedUrl_nonwhitelist_counterexample :
    allowedParams.contains "foo" = false ∧
    paramsHas srcFoo "foo" = true ∧
    paramsHas (buildTrackedUrl destFoo srcFoo).searchParams "foo" = true ∧
    paramsGet (buildTrackedUrl destFoo srcFoo).searchParams "foo" = some "1" := by
  decide

/-- Helper: once the Lead fired (flag set, listener detached), no later
event changes the fired count, the flag, or the detachment. -/
theorem leadStep_inactive (e : LeadEvent) (s : LeadState)
    (h1 : s.leadTracked = true) (h2 : s.scrollListenerAttached = false) :
    (leadStep e s).leadsFired = s.leadsFired ∧ (leadStep e s).leadTracked = true ∧
    (leadStep e s).scrollListenerAttached = false := by
  cases e with
  | scroll y => simp [leadStep, handleScroll, h1, h2]
  | timer => simp [leadStep, dwellTimerFire, checkLeadConditions, h1, h2]

/-- Helper: running any event sequence from a fired state keeps the count,
the flag and the detachment. -/
theorem leadFoldl_inactive (evs : List LeadEvent) :
    ∀ s : LeadState, s.leadTracked = true → s.scrollListenerAttached = false →
    (evs.foldl (fun s e => leadStep e s) s).leadsFired = s.leadsFired ∧
    (evs.foldl (fun s e => leadStep e s) s).leadTracked = true ∧
    (evs.foldl (fun s e => leadStep e s) s).scrollListenerAttached = false := by
  induction evs with
  | nil => exact fun s h1 h2 => ⟨rfl, h1, h2⟩
  | cons e evs ih =>
    intro s h1 h2
    obtain ⟨g1, g2, g3⟩ := leadStep_inactive e s h1 h2
    have h := ih (leadStep e s) g2 g3
    simp only [List.foldl_cons]
    exact ⟨h.1.trans g1, h.2.1, h.2.2⟩

/-- Helper: the dwell timer firing on a not-yet-tracked state fires the
Lead event and detaches the scroll listener. -/
theorem dwellTimerFire_fresh (s : LeadState) (h1 : s.leadTracked = false) :
    (dwellTimerFire s).leadTracked = true ∧
    (dwellTimerFire s).scrollListenerAttached = false ∧
    (dwellTimerFire s).leadsFired = s.leadsFired + 1 := by
  simp [dwellTimerFire, checkLeadConditions, h1]

/-- Helper: a scroll past 300 pixels on a fresh state fires the Lead event
and detaches the scroll listener. -/
theorem handleScroll_fresh (y : Nat) (s : LeadState) (h1 : s.leadTracked = false)
    (h2 : s.scrollThreshold = false) (h3 : s.scrollListenerAttached = true)
    (hy : 300 < y) :
    (handleScroll y s).leadTracked = true ∧
    (handleScroll y s).scrollListenerAttached = false ∧
    (handleScroll y s).leadsFired = s.leadsFired + 1 := by
  simp [handleScroll, checkLeadConditions, h1, h2, h3, hy]

/-- Helper: a scroll at or below 300 pixels never changes the state. -/
theorem handleScroll_small (y : Nat) (s : LeadState) (hy : ¬ 300 < y) :
    handleScroll y s = s := by
  simp [handleScroll, hy]

/-- Helper: from a fresh state the fired count after a sequence of events is
one exactly when some event meets a Lead condition, and the listener is
detached whenever the flag is set. -/
theorem leadFoldl_fresh (evs : List LeadEvent) :
    ∀ s : LeadState, s.leadTracked = false → s.scrollThreshold = false →
    s.scrollListenerAttached = true → s.leadsFired = 0 →
    ((evs.foldl (fun s e => leadStep e s) s).leadsFired
        = if evs.any isEngagementTrigger then 1 else 0) ∧
    ((evs.foldl (fun s e => leadStep e s) s).leadTracked
        && (evs.foldl (fun s e => leadStep e s) s).scrollListenerAttached) = false := by
  induction evs with
  | nil =>
    intro s h1 _ h3 h4
    simp [h1, h4]
  | cons e evs ih =>
    intro s h1 h2 h3 h4
    simp only [List.foldl_cons, List.any_cons]
    cases e with
    | scroll y =>
      by_cases hy : 300 < y
      · obtain ⟨g1, g2, g3⟩ := handleScroll_fresh y s h1 h2 h3 hy
        obtain ⟨f1, f2, f3⟩ := leadFoldl_inactive evs (leadStep (LeadEvent.scroll y) s) g1 g2
        refine ⟨?_, ?_⟩
        · rw [f1]
          show (handleScroll y s).leadsFired = _
          rw [g3, h4]
          simp [isEngagementTrigger, hy]
        · rw [f2, f3]
          rfl
      · have hstep : leadStep (LeadEvent.scroll y) s = s := handleScroll_small y s hy
        rw [hstep]
        have h := ih s h1 h2 h3 h4
        simpa [isEngagementTrigger, hy] using h
    | timer =>
      obtain ⟨g1, g2, g3⟩ := dwellTimerFire_fresh s h1
      obtain ⟨f1, f2, f3⟩ := leadFoldl_inactive evs (leadStep LeadEvent.timer s) g1 g2
      refine ⟨?_, ?_⟩
      · rw [f1]
        show (dwellTimerFire s).leadsFired = _
        rw [g3, h4]
        simp [isEngagementTrigger]
      · rw [f2, f3]
        rfl

/-- C5: the Lead event fires exactly once per page view: the fired count
after any sequence of scroll and dwell-timer events is one exactly when
some event crossed a threshold (scrollY above 300 or the dwell timer),
never more than one, and the scroll listener is detached whenever the
event has fired. -/
theorem lead_event_fires_exactly_once (evs : List LeadEvent) :
    ((runLead evs).leadsFired = if evs.any isEngagementTrigger then 1 else 0) ∧
    ((runLead evs).leadTracked && (runLead evs).scrollListenerAttached) = false ∧
    (runLead evs).leadsFired ≤ 1 := by
  have h := leadFoldl_fresh evs initLeadState rfl rfl rfl rfl
  unfold runLead
  refine ⟨h.1, h.2, ?_⟩
  rw [h.1]
  split <;> norm_num

/-- Helper: when the pixel never reports ready, the polling loop performs
exactly the remaining number of checks and rejects. -/
theorem checkFbq_never (ready : Nat → Bool) (h : ∀ n, ready n = false) :
    ∀ k attempts maxAttempts, maxAttempts = attempts + k → 1 ≤ k →
      checkFbq ready maxAttempts attempts =
        { checks := maxAttempts, outcome := Except.error "Meta Pixel timeout" } := by
  intro k
  induction k with
  | zero => intro attempts maxAttempts hma hk; omega
  | succ m ih =>
    intro attempts maxAttempts hma _
    rw [checkFbq]
    simp only [h, Bool.false_eq_true, if_false]
    by_cases hle : maxAttempts ≤ attempts + 1
    · rw [if_pos hle]
      have hEq : maxAttempts = attempts + 1 := by omega
      rw [hEq]
    · rw [if_neg hle]
      exact ih (attempts + 1) maxAttempts (by omega) (by omega)

/-- C6: when the tracking library never becomes ready, waitForFbq performs
exactly its maxAttempts (50) checks and rejects; the rejection is absorbed
by the catch arm of setupMetaPixelTracking (the total function
setupTrackAttempts), and no tracking call is attempted for any combination
of CTA presence, engagement events, and clicks. -/
theorem fbq_timeout_no_tracking (ready : Nat → Bool) (h : ∀ n, ready n = false) :
    waitForFbq ready = { checks := 50, outcome := Except.error "Meta Pixel timeout" } ∧
    ∀ (ctaPresent : Bool) (evs : List LeadEvent) (ctaClicked : Bool),
      setupTrackAttempts ready ctaPresent evs ctaClicked = 0 := by
  have hw : waitForFbq ready = { checks := 50, outcome := Except.error "Meta Pixel timeout" } :=
    checkFbq_never ready h 50 0 50 rfl (by norm_num)
  refine ⟨hw, fun ctaPresent evs ctaClicked => ?_⟩
  unfold setupTrackAttempts
  rw [hw]

/-- Witness for C6 with the constantly-unready oracle. -/
theorem fbq_timeout_no_tracking_witness :
    (∀ n : Nat, (fun _ : Nat => false) n = false) ∧
    setupTrackAttempts (fun _ => false) true [] false = 0 :=
  ⟨fun _ => rfl, (fbq_timeout_no_tracking (fun _ => false) (fun _ => rfl)).2 true [] false⟩

/-- Helper: a list of cleared flags counts no active entry. -/
theorem count_true_replicate_false (n : Nat) :
    (List.replicate n false).count true = 0 := by
  induction n with
  | zero => rfl
  | succ m ih => simp [List.replicate_succ, List.count_cons, ih]

/-- Helper: activating one in-range position in a cleared list yields
exactly one active entry. -/
theorem count_set_true (n : Nat) : ∀ i : Nat, i < n →
    ((List.replicate n false).set i true).count true = 1 := by
  induction n with
  | zero => omega
  | succ m ih =>
    intro i hi
    cases i with
    | zero =>
      simp [List.replicate_succ, List.count_cons, count_true_replicate_false]
    | succ j =>
      have hj : j < m := by omega
      simp [List.replicate_succ, List.count_cons, ih j hj]

/-- Helper: clearing every flag is the all-false list of the same length. -/
theorem clearActive_eq_replicate : ∀ l : List Bool,
    clearActive l = List.replicate l.length false
  | [] => rfl
  | a :: l => by
    simp only [clearActive, List.map_cons, List.length_cons, List.replicate_succ]
    simp [clearActive]

/-- Helper: showImage at an in-range index leaves exactly one active image
and one active indicator, preserves both lengths, and stores the index. -/
theorem showImage_active (s : CarouselState) (i : Nat)
    (hi : i < s.images.length) (hi2 : i < s.indicators.length) :
    (showImage s i).images.count true = 1 ∧
    (showImage s i).indicators.count true = 1 ∧
    (showImage s i).images.length = s.images.length ∧
    (showImage s i).indicators.length = s.indicators.length ∧
    (showImage s i).currentIndex = i := by
  simp only [showImage, setActiveAt]
  refine ⟨?_, ?_, by simp [clearActive], by simp [clearActive], by trivial⟩
  · rw [clearActive_eq_replicate]
    exact count_set_true _ i hi
  · rw [clearActive_eq_replicate]
    exact count_set_true _ i hi2

/-- Helper: every registered carousel operation passes an in-range index to
showImage, so it preserves the exactly-one-active invariant and the element
counts. -/
theorem applyCarouselOp_active (n : Nat) (hn : 1 ≤ n) (op : CarouselOp)
    (hop : validCarouselOp n op = true) (s : CarouselState)
    (h1 : s.images.length = n) (h2 : s.indicators.length = n) :
    (applyCarouselOp op s).images.count true = 1 ∧
    (applyCarouselOp op s).indicators.count true = 1 ∧
    (applyCarouselOp op s).images.length = n ∧
    (applyCarouselOp op s).indicators.length = n := by
  have key : ∀ i : Nat, i < n →
      (showImage s i).images.count true = 1 ∧
      (showImage s i).indicators.count true = 1 ∧
      (showImage s i).images.length = n ∧
      (showImage s i).indicators.length = n := by
    intro i hi
    obtain ⟨a, b, c, d, _⟩ := showImage_active s i (by omega) (by omega)
    exact ⟨a, b, by omega, by omega⟩
  have hnextIdx : (s.currentIndex + 1) % s.images.length < n := by
    rw [h1]
    exact Nat.mod_lt _ (by omega)
  have hprevIdx :
      ((((s.currentIndex : Int) - 1 + (s.images.length : Int)) % (s.images.length : Int)).toNat) < n := by
    rw [h1]
    have hnz : (n : Int) ≠ 0 := by
      intro hc
      omega
    have e1 := Int.emod_nonneg ((s.currentIndex : Int) - 1 + (n : Int)) hnz
    have e2 := Int.emod_lt_of_pos ((s.currentIndex : Int) - 1 + (n : Int))
      (show (0 : Int) < (n : Int) by omega)
    omega
  cases op with
  | next => exact key _ hnextIdx
  | prev => exact key _ hprevIdx
  | indicator k => exact key k (by simpa [validCarouselOp] using hop)
  | keyLeft => exact key _ hprevIdx
  | keyRight => exact key _ hnextIdx

/-- Helper: running a sequence of valid operations preserves the
exactly-one-active invariant and the element counts. -/
theorem runCarousel_active (n : Nat) (hn : 1 ≤ n) (ops : List CarouselOp) :
    ∀ s : CarouselState, (∀ op ∈ ops, validCarouselOp n op = true) →
    s.images.length = n → s.indicators.length = n →
    s.images.count true = 1 → s.indicators.count true = 1 →
    (runCarousel ops s).images.count true = 1 ∧
    (runCarousel ops s).indicators.count true = 1 ∧
    (runCarousel ops s).images.length = n ∧
    (runCarousel ops s).indicators.length = n := by
  induction ops with
  | nil => exact fun s _ g1 g2 g3 g4 => ⟨g3, g4, g1, g2⟩
  | cons op ops ih =>
    intro s hops g1 g2 _ _
    obtain ⟨a, b, c, d⟩ :=
      applyCarouselOp_active n hn op (hops op (by simp)) s g1 g2
    have h := ih (applyCarouselOp op s) (fun o ho => hops o (by simp [ho])) c d a b
    simpa [runCarousel, List.foldl_cons] using h

/-- C7: after initialization and after every sequence of carousel
operations (next, prev, indicator clicks with in-range indices, keyboard
arrows), exactly one image and exactly one indicator carry the active
class. -/
theorem carousel_exactly_one_active (n : Nat) (hn : 1 ≤ n) (ops : List CarouselOp)
    (hops : ∀ op ∈ ops, validCarouselOp n op = true) :
    (runCarousel ops (initCarouselState n)).images.count true = 1 ∧
    (runCarousel ops (initCarouselState n)).indicators.count true = 1 := by
  have hbase :
      (List.replicate n false).length = n := by simp
  obtain ⟨a, b, c, d, _⟩ := showImage_active
    { images := List.replicate n false, indicators := List.replicate n false,
      currentIndex := 0 }
    0 (by simpa using hn) (by simpa using hn)
  have h := runCarousel_active n hn ops (initCarouselState n) hops
    (by simpa using c) (by simpa using d) a b
  exact ⟨h.1, h.2.1⟩

/-- Witness for C7 on a three-image carousel and a concrete operation
sequence. -/
theorem carousel_exactly_one_active_witness :
    (1 ≤ 3 ∧ ∀ op ∈ carouselOpsEx, validCarouselOp 3 op = true) ∧
    (runCarousel carouselOpsEx (initCarouselState 3)).images.count true = 1 ∧
    (runCarousel carouselOpsEx (initCarouselState 3)).indicators.count true = 1 :=
  ⟨⟨by norm_num, by decide⟩,
   carousel_exactly_one_active 3 (by norm_num) carouselOpsEx (by decide)⟩

/-- C9: carousel index arithmetic wraps modulo the image count at both
ends: next yields (i + 1) mod N, prev yields (i - 1 + N) mod N computed
without a negative remainder, both always in range; concretely on three
images, prev from 0 is 2 and next from 2 is 0. -/
theorem carousel_index_mod (s : CarouselState) (h : 1 ≤ s.images.length) :
    (nextImage s).currentIndex = (s.currentIndex + 1) % s.images.length ∧
    (nextImage s).currentIndex < s.images.length ∧
    (prevImage s).currentIndex
      = (s.currentIndex + s.images.length - 1) % s.images.length ∧
    (prevImage s).currentIndex < s.images.length ∧
    (prevImage carouselStateA).currentIndex = 2 ∧
    (nextImage carouselStateB).currentIndex = 0 := by
  have hcast : ((s.currentIndex : Int) - 1 + (s.images.length : Int))
      = ((s.currentIndex + s.images.length - 1 : Nat) : Int) := by
    omega
  have hprev : (prevImage s).currentIndex
      = (s.currentIndex + s.images.length - 1) % s.images.length := by
    show ((((s.currentIndex : Int) - 1 + (s.images.length : Int))
        % (s.images.length : Int)).toNat) = _
    rw [hcast]
    norm_cast
  refine ⟨rfl, Nat.mod_lt _ (by omega), hprev, ?_, by decide, by decide⟩
  rw [hprev]
  exact Nat.mod_lt _ (by omega)

/-- Witness for C9 at the concrete three-image states. -/
theorem carousel_index_mod_witness :
    1 ≤ carouselStateA.images.length ∧
    (prevImage carouselStateA).currentIndex = 2 :=
  ⟨by decide, (carousel_index_mod carouselStateA (by decide)).2.2.2.2.1⟩

/-- Helper: presence of a key distributes over concatenation. -/
theorem paramsHas_append (l1 l2 : List (String × String)) (k : String) :
    paramsHas (l1 ++ l2) k = (paramsHas l1 k || paramsHas l2 k) := by
  simp [paramsHas]

/-- Helper: presence of a key in a singleton list. -/
theorem paramsHas_single (key v k : String) :
    paramsHas [(key, v)] k = (key == k) := by
  simp [paramsHas]

/-- Helper: setting an absent key appends the pair at the end. -/
theorem paramsSet_not_has (ps : List (String × String)) (k v : String)
    (h : paramsHas ps k = false) : paramsSet ps k v = ps ++ [(k, v)] := by
  induction ps with
  | nil => rfl
  | cons p rest ih =>
    have hor : ((p.1 == k) || paramsHas rest k) = false := h
    have h1 : (p.1 == k) = false := by
      cases hpk : (p.1 == k)
      · rfl
      · rw [hpk] at hor
        simp at hor
    have h2 : paramsHas rest k = false := by
      cases hr : paramsHas rest k
      · rfl
      · rw [hr] at hor
        simp at hor
    simp [paramsSet, h1, ih h2]

/-- Helper: the first match for a key already present on the left is
unaffected by appending on the right. -/
theorem paramsGet_append_left (l1 l2 : List (String × String)) (k : String)
    (h : paramsHas l1 k = true) :
    paramsGet (l1 ++ l2) k = paramsGet l1 k := by
  induction l1 with
  | nil => simp [paramsHas] at h
  | cons p rest ih =>
    show (List.find? (fun q : String × String => q.1 == k) (p :: (rest ++ l2))).map
          (fun q => q.2)
        = (List.find? (fun q : String × String => q.1 == k) (p :: rest)).map
          (fun q => q.2)
    cases hpk : (p.1 == k) with
    | true =>
      rw [List.find?_cons_of_pos (p := fun q : String × String => q.1 == k) _ hpk,
        List.find?_cons_of_pos (p := fun q : String × String => q.1 == k) _ hpk]
    | false =>
      have hor : ((p.1 == k) || paramsHas rest k) = true := h
      rw [hpk] at hor
      have h2 : paramsHas rest k = true := by simpa using hor
      have hneg : ¬((p.1 == k) = true) := by simp [hpk]
      rw [List.find?_cons_of_neg (p := fun q : String × String => q.1 == k) _ hneg,
        List.find?_cons_of_neg (p := fun q : String × String => q.1 == k) _ hneg]
      exact ih h2

/-- Helper: lookup skips a left part that lacks the key. -/
theorem paramsGet_append_right (l1 l2 : List (String × String)) (k : String)
    (h : paramsHas l1 k = false) :
    paramsGet (l1 ++ l2) k = paramsGet l2 k := by
  induction l1 with
  | nil => rfl
  | cons p rest ih =>
    have hor : ((p.1 == k) || paramsHas rest k) = false := h
    have h1 : (p.1 == k) = false := by
      cases hpk : (p.1 == k)
      · rfl
      · rw [hpk] at hor
        simp at hor
    have h2 : paramsHas rest k = false := by
      cases hr : paramsHas rest k
      · rfl
      · rw [hr] at hor
        simp at hor
    show (List.find? (fun q : String × String => q.1 == k) (p :: (rest ++ l2))).map
          (fun q => q.2)
        = paramsGet l2 k
    have hneg : ¬((p.1 == k) = true) := by simp [h1]
    rw [List.find?_cons_of_neg (p := fun q : String × String => q.1 == k) _ hneg]
    exact ih h2

/-- Helper: which keys one copy step makes present. -/
theorem mergeStep_has (src acc : List (String × String)) (key k : String) :
    paramsHas (mergeStep src acc key) k
      = (paramsHas acc k || (key == k && paramsHas src k)) := by
  unfold mergeStep
  by_cases hs : paramsHas src key = true
  · by_cases ha : paramsHas acc key = true
    · rw [if_pos hs, if_pos ha]
      by_cases hkk : (key == k) = true
      · have hkey : key = k := eq_of_beq hkk
        subst hkey
        simp [ha, hs]
      · have hkk' : (key == k) = false := by simpa using hkk
        simp [hkk']
    · rw [if_pos hs, if_neg ha]
      have ha' : paramsHas acc key = false := by simpa using ha
      rw [paramsSet_not_has acc key _ ha', paramsHas_append, paramsHas_single]
      by_cases hkk : (key == k) = true
      · have hkey : key = k := eq_of_beq hkk
        subst hkey
        simp [hs]
      · have hkk' : (key == k) = false := by simpa using hkk
        simp [hkk']
  · rw [if_neg hs]
    have hs' : paramsHas src key = false := by simpa using hs
    by_cases hkk : (key == k) = true
    · have hkey : key = k := eq_of_beq hkk
      subst hkey
      simp [hs']
    · have hkk' : (key == k) = false := by simpa using hkk
      simp [hkk']

/-- Helper: after folding the copy step over a key list, a key is present
exactly when it was present in the accumulator or is a listed key the
source page has. -/
theorem mergeFold_has (src : List (String × String)) :
    ∀ (ks : List String) (acc : List (String × String)) (k : String),
    paramsHas (ks.foldl (mergeStep src) acc) k
      = (paramsHas acc k || (ks.contains k && paramsHas src k)) := by
  intro ks
  induction ks with
  | nil =>
    intro acc k
    simp
  | cons key ks ih =>
    intro acc k
    simp only [List.foldl_cons]
    rw [ih (mergeStep src acc key) k, mergeStep_has, List.contains_cons]
    rw [show (k == key) = (key == k) from Bool.beq_comm]
    cases paramsHas acc k <;> cases (key == k) <;>
      cases ks.contains k <;> cases paramsHas src k <;> rfl

/-- Helper: values already present in the accumulator survive the whole
fold unchanged. -/
theorem mergeFold_get_preserve (src : List (String × String)) :
    ∀ (ks : List String) (acc : List (String × String)) (k : String),
    paramsHas acc k = true →
    paramsGet (ks.foldl (mergeStep src) acc) k = paramsGet acc k := by
  intro ks
  induction ks with
  | nil =>
    intro acc k _
    rfl
  | cons key ks ih =>
    intro acc k hk
    simp only [List.foldl_cons]
    have hstep_get : paramsGet (mergeStep src acc key) k = paramsGet acc k := by
      unfold mergeStep
      by_cases hs : paramsHas src key = true
      · by_cases ha : paramsHas acc key = true
        · rw [if_pos hs, if_pos ha]
        · rw [if_pos hs, if_neg ha]
          have ha' : paramsHas acc key = false := by simpa using ha
          rw [paramsSet_not_has acc key _ ha']
          exact paramsGet_append_left acc _ k hk
      · rw [if_neg hs]
    have hstep_has : paramsHas (mergeStep src acc key) k = true := by
      rw [mergeStep_has, hk]
      rfl
    rw [ih (mergeStep src acc key) k hstep_has, hstep_get]

/-- Helper: a listed key the source has and the accumulator lacks ends up
with the source value (with the or-empty-string fallback of the script). -/
theorem mergeFold_get_added (src : List (String × String)) :
    ∀ (ks : List String) (acc : List (String × String)) (k : String),
    ks.contains k = true → paramsHas src k = true → paramsHas acc k = false →
    paramsGet (ks.foldl (mergeStep src) acc) k
      = some ((paramsGet src k).getD "") := by
  intro ks
  induction ks with
  | nil =>
    intro acc k hc
    simp at hc
  | cons key ks ih =>
    intro acc k hc hs hacc
    simp only [List.foldl_cons]
    by_cases hkk : (k == key) = true
    · have hkey : k = key := eq_of_beq hkk
      subst hkey
      have hstep : mergeStep src acc k = acc ++ [(k, (paramsGet src k).getD "")] := by
        unfold mergeStep
        rw [if_pos hs, if_neg (by simp [hacc]), paramsSet_not_has acc k _ hacc]
      rw [hstep]
      have hhas : paramsHas (acc ++ [(k, (paramsGet src k).getD "")]) k = true := by
        rw [paramsHas_append, paramsHas_single]
        simp
      rw [mergeFold_get_preserve src ks _ k hhas]
      rw [paramsGet_append_right acc _ k hacc]
      simp [paramsGet]
    · have hkk' : (k == key) = false := by simpa using hkk
      have hc2 : ks.contains k = true := by
        rw [List.contains_cons, hkk'] at hc
        simpa using hc
      have hstep_has : paramsHas (mergeStep src acc key) k = false := by
        rw [mergeStep_has, hacc]
        rw [show (key == k) = (k == key) from Bool.beq_comm, hkk']
        rfl
      exact ih (mergeStep src acc key) k hc2 hs hstep_has

/-- C1 (amended): buildTrackedUrl adds a key (present in the result but not
in the template) exactly when the key is whitelisted, the source page has
it and the template lacks it; template-defined keys keep their template
value; a non-whitelisted key is present in the result exactly when the
template itself defines it (it is never copied from the source); and a
copied key carries the source value. -/
theorem buildTrackedUrl_whitelist_merge (url : URLModel)
    (src : List (String × String)) (k : String) :
    ((paramsHas (buildTrackedUrl url src).searchParams k
        && !(paramsHas url.searchParams k))
      = (allowedParams.contains k && paramsHas src k
        && !(paramsHas url.searchParams k))) ∧
    (paramsHas url.searchParams k = true →
      paramsGet (buildTrackedUrl url src).searchParams k
        = paramsGet url.searchParams k) ∧
    (allowedParams.contains k = false →
      paramsHas (buildTrackedUrl url src).searchParams k
        = paramsHas url.searchParams k) ∧
    (allowedParams.contains k = true → paramsHas src k = true →
      paramsHas url.searchParams k = false →
      paramsGet (buildTrackedUrl url src).searchParams k
        = some ((paramsGet src k).getD "")) := by
  have hfold : (buildTrackedUrl url src).searchParams
      = allowedParams.foldl (mergeStep src) url.searchParams := rfl
  refine ⟨?_, ?_, ?_, ?_⟩
  · rw [hfold, mergeFold_has]
    cases paramsHas url.searchParams k <;> cases allowedParams.contains k <;>
      cases paramsHas src k <;> rfl
  · intro h
    rw [hfold]
    exact mergeFold_get_preserve src allowedParams _ k h
  · intro h
    rw [hfold, mergeFold_has, h]
    simp
  · intro h1 h2 h3
    rw [hfold]
    exact mergeFold_get_added src allowedParams _ k h1 h2 h3

/-- Witness for C1 on the concrete CTA template and a sample query string:
the template-defined ch keeps its value, the non-whitelisted foo is not
copied, and the whitelisted utm_source is copied with its source value. -/
theorem buildTrackedUrl_whitelist_merge_witness :
    (paramsHas destCta.searchParams "ch" = true ∧
      paramsGet (buildTrackedUrl destCta srcCta).searchParams "ch"
        = paramsGet destCta.searchParams "ch") ∧
    (allowedParams.contains "foo" = false ∧
      paramsHas (buildTrackedUrl destCta srcCta).searchParams "foo"
        = paramsHas destCta.searchParams "foo") ∧
    (allowedParams.contains "utm_source" = true ∧
      paramsHas srcCta "utm_source" = true ∧
      paramsHas destCta.searchParams "utm_source" = false ∧
      paramsGet (buildTrackedUrl destCta srcCta).searchParams "utm_source"
        = some ((paramsGet srcCta "utm_source").getD "")) :=
  ⟨⟨by decide, (buildTrackedUrl_whitelist_merge destCta srcCta "ch").2.1 (by decide)⟩,
   ⟨by decide, (buildTrackedUrl_whitelist_merge destCta srcCta "foo").2.2.1 (by decide)⟩,
   ⟨by decide, by decide, by decide,
    (buildTrackedUrl_whitelist_merge destCta srcCta "utm_source").2.2.2
      (by decide) (by decide) (by decide)⟩⟩

/-- Helper: object lookup over concatenation prefers the right part. -/
theorem objGet_append (l1 l2 : List (String × String)) (k : String) :
    objGet (l1 ++ l2) k
      = (match objGet l2 k with
         | some v => some v
         | none => objGet l1 k) := by
  induction l1 with
  | nil =>
    show objGet l2 k
        = (match objGet l2 k with
           | some v => some v
           | none => objGet ([] : List (String × String)) k)
    cases h : objGet l2 k <;> rfl
  | cons p rest ih =>
    show (match objGet (rest ++ l2) k with
          | some v => some v
          | none => if p.1 == k then some p.2 else none)
        = (match objGet l2 k with
           | some v => some v
           | none => objGet (p :: rest) k)
    rw [ih]
    cases h2 : objGet l2 k with
    | some v => rfl
    | none => rfl

/-- Helper: a list none of whose keys match yields no lookup result. -/
theorem objGet_eq_none (l : List (String × String)) (k : String)
    (h : ∀ q ∈ l, (q.1 == k) = false) : objGet l k = none := by
  induction l with
  | nil => rfl
  | cons p rest ih =>
    show (match objGet rest k with
          | some v => some v
          | none => if p.1 == k then some p.2 else none) = none
    rw [ih (fun q hq => h q (by simp [hq])), h p (by simp)]
    rfl

/-- Helper: appending entries whose keys never match leaves lookup
unchanged. -/
theorem objGet_append_right_none (l1 l2 : List (String × String)) (k : String)
    (h : ∀ q ∈ l2, (q.1 == k) = false) :
    objGet (l1 ++ l2) k = objGet l1 k := by
  rw [objGet_append, objGet_eq_none l2 k h]

/-- Helper: a key with a matching entry makes paramsHas true. -/
theorem paramsHas_of_mem (l : List (String × String)) (k : String)
    (q : String × String) (hq : q ∈ l) (hqk : (q.1 == k) = true) :
    paramsHas l k = true := by
  unfold paramsHas
  rw [List.any_eq_true]
  exact ⟨q, hq, hqk⟩

/-- Helper: assignment stores the value retrievably. -/
theorem objGet_objInsert_self (m : List (String × String)) (k v : String) :
    objGet (objInsert m k v) k = some v := by
  unfold objInsert
  by_cases hm : paramsHas m k = true
  · rw [if_pos hm]
    induction m with
    | nil => simp [paramsHas] at hm
    | cons p rest ih =>
      by_cases hr : paramsHas rest k = true
      · have hrest := ih hr
        show (match objGet (rest.map (fun q => if q.1 == k then (k, v) else q)) k with
              | some w => some w
              | none =>
                if ((if p.1 == k then (k, v) else p) : String × String).1 == k
                then some ((if p.1 == k then (k, v) else p) : String × String).2
                else none)
            = some v
        rw [hrest]
      · have hr' : paramsHas rest k = false := by simpa using hr
        have hnone : objGet (rest.map (fun q => if q.1 == k then (k, v) else q)) k
            = none := by
          apply objGet_eq_none
          intro q hq
          obtain ⟨q0, hq0, hmap⟩ := List.mem_map.mp hq
          by_cases hq0k : (q0.1 == k) = true
          · exact absurd (paramsHas_of_mem rest k q0 hq0 hq0k) (by simp [hr'])
          · have hq0k' : (q0.1 == k) = false := by simpa using hq0k
            rw [← hmap, if_neg (by simp [hq0k'])]
            exact hq0k'
        have hp : (p.1 == k) = true := by
          have hor : ((p.1 == k) || paramsHas rest k) = true := hm
          rw [hr'] at hor
          simpa using hor
        show (match objGet (rest.map (fun q => if q.1 == k then (k, v) else q)) k with
              | some w => some w
              | none =>
                if ((if p.1 == k then (k, v) else p) : String × String).1 == k
                then some ((if p.1 == k then (k, v) else p) : String × String).2
                else none)
            = some v
        rw [hnone]
        simp [hp]
  · rw [if_neg hm]
    rw [objGet_append]
    have hone : objGet [(k, v)] k = some v := by
      show (match (none : Option String) with
            | some w => some w
            | none => if k == k then some v else none) = some v
      simp
    rw [hone]

/-- Helper: assignment to one key leaves lookups of other keys unchanged. -/
theorem objGet_objInsert_ne (m : List (String × String)) (k v kq : String)
    (hne : (k == kq) = false) :
    objGet (objInsert m k v) kq = objGet m kq := by
  unfold objInsert
  by_cases hm : paramsHas m k = true
  · rw [if_pos hm]
    clear hm
    induction m with
    | nil => rfl
    | cons p rest ih =>
      show (match objGet (rest.map (fun q => if q.1 == k then (k, v) else q)) kq with
            | some w => some w
            | none =>
              if ((if p.1 == k then (k, v) else p) : String × String).1 == kq
              then some ((if p.1 == k then (k, v) else p) : String × String).2
              else none)
          = (match objGet rest kq with
             | some w => some w
             | none => if p.1 == kq then some p.2 else none)
      rw [ih]
      by_cases hpk : (p.1 == k) = true
      · have hp1 : p.1 = k := eq_of_beq hpk
        cases hro : objGet rest kq <;> simp [hpk, hp1, hne]
      · have hpk' : (p.1 == k) = false := by simpa using hpk
        cases hro : objGet rest kq <;> simp [hpk']
  · rw [if_neg hm]
    apply objGet_append_right_none
    intro q hq
    have hq1 : q = (k, v) := by simpa using hq
    rw [hq1]
    exact hne

/-- Helper: assignment only adds the assigned key to the key set. -/
theorem objInsert_keys (m : List (String × String)) (k v : String)
    (S : List String) (hm : ∀ q ∈ m, q.1 ∈ S) (hk : k ∈ S) :
    ∀ q ∈ objInsert m k v, q.1 ∈ S := by
  intro q hq
  unfold objInsert at hq
  by_cases hmk : paramsHas m k = true
  · rw [if_pos hmk] at hq
    obtain ⟨q0, hq0, hmap⟩ := List.mem_map.mp hq
    by_cases h : (q0.1 == k) = true
    · rw [← hmap, if_pos h]
      exact hk
    · have h' : (q0.1 == k) = false := by simpa using h
      rw [← hmap, if_neg (by simp [h'])]
      exact hm q0 hq0
  · rw [if_neg hmk] at hq
    rcases List.mem_append.mp hq with h | h
    · exact hm q h
    · have hq1 : q = (k, v) := by simpa using h
      rw [hq1]
      exact hk

/-- Helper: the collected standard UTM object only holds the five UTM
keys. -/
theorem utmBase_keys (search : List (String × String)) :
    ∀ q ∈ utmBase search, q.1 ∈ utmUniverse := by
  have main : ∀ (ks : List String) (acc : List (String × String)),
      (∀ q ∈ acc, q.1 ∈ utmUniverse) → (∀ x ∈ ks, x ∈ utmUniverse) →
      ∀ q ∈ ks.foldl (utmCollectStep search) acc, q.1 ∈ utmUniverse := by
    intro ks
    induction ks with
    | nil => exact fun acc ha _ => ha
    | cons key ks ih =>
      intro acc ha hks
      simp only [List.foldl_cons]
      apply ih
      · intro q hq
        unfold utmCollectStep at hq
        by_cases hsk : paramsHas search key = true
        · rw [if_pos hsk] at hq
          exact objInsert_keys acc key _ utmUniverse ha (hks key (by simp)) q hq
        · rw [if_neg hsk] at hq
          exact ha q hq
      · intro x hx
        exact hks x (by simp [hx])
  exact main utmKeys [] (by simp) (by decide)

/-- Helper: the medium-default idiom only touches the utm_medium key. -/
theorem setMediumDefault_keys (m : List (String × String)) (d : String)
    (S : List String) (hm : ∀ q ∈ m, q.1 ∈ S) (h : "utm_medium" ∈ S) :
    ∀ q ∈ setMediumDefault m d, q.1 ∈ S := by
  unfold setMediumDefault
  exact objInsert_keys m "utm_medium" _ S hm h

/-- Helper: referrer auto-detection only writes utm_source and
utm_medium. -/
theorem autoDetect_keys (m : List (String × String)) (r : String)
    (S : List String) (hm : ∀ q ∈ m, q.1 ∈ S)
    (h1 : "utm_source" ∈ S) (h2 : "utm_medium" ∈ S) :
    ∀ q ∈ autoDetect m r, q.1 ∈ S := by
  unfold autoDetect
  by_cases ht : jsTruthy (objGet m "utm_source") = true
  · rw [if_pos ht]
    exact hm
  · rw [if_neg ht]
    by_cases hig : (strContains (jsToLower r) "instagram.com"
        || strContains (jsToLower r) "ig.me") = true
    · rw [if_pos hig]
      exact setMediumDefault_keys _ _ S (objInsert_keys m _ _ S hm h1) h2
    · rw [if_neg hig]
      by_cases hfb : (strContains (jsToLower r) "facebook.com"
          || strContains (jsToLower r) "fb.me") = true
      · rw [if_pos hfb]
        exact setMediumDefault_keys _ _ S (objInsert_keys m _ _ S hm h1) h2
      · rw [if_neg hfb]
        by_cases hyt : (strContains (jsToLower r) "youtube.com"
            || strContains (jsToLower r) "twitch.tv" || strContains (jsToLower r) "live") = true
        · rw [if_pos hyt]
          exact setMediumDefault_keys _ _ S (objInsert_keys m _ _ S hm h1) h2
        · rw [if_neg hyt]
          exact hm

/-- Helper: the timestamp enrichment only writes tracking_timestamp. -/
theorem addTimestamp_keys (m : List (String × String)) (ts : String)
    (S : List String) (hm : ∀ q ∈ m, q.1 ∈ S)
    (h : "tracking_timestamp" ∈ S) :
    ∀ q ∈ addTimestamp m ts, q.1 ∈ S := by
  unfold addTimestamp
  by_cases hl : 0 < m.length
  · rw [if_pos hl]
    exact objInsert_keys m "tracking_timestamp" ts S hm h
  · rw [if_neg hl]
    exact hm

/-- Helper: getUtmParameters stores only the five UTM keys and the tracking
timestamp. -/
theorem getUtmParameters_keys (env : PageEnv) :
    ∀ q ∈ getUtmParameters env, q.1 ∈ utmUniverse := by
  unfold getUtmParameters
  apply addTimestamp_keys _ _ _ _ (by decide)
  apply autoDetect_keys _ _ _ _ (by decide) (by decide)
  exact utmBase_keys env.search

/-- Helper: spreading the UTM map after the fixed payload fields leaves
every field outside the UTM key set unchanged. -/
theorem objGet_payload_fixed (env : PageEnv) (fixed : List (String × String))
    (k : String) (hk : ∀ x ∈ utmUniverse, (x == k) = false) :
    objGet (fixed ++ getUtmParameters env) k = objGet fixed k := by
  apply objGet_append_right_none
  intro q hq
  exact hk q.1 (getUtmParameters_keys env q hq)

/-- C3: in every fired event payload (ViewContent, Lead, AddToCart) the
merge of the UTM parameter map never clobbers the fixed descriptive
fields: each fixed field keeps exactly the value the payload literal
assigns it, for every page environment and either engagement order. -/
theorem event_payload_fixed_fields (env : PageEnv) (scrollFirst : Bool) :
    objGet (viewContentData env) "content_name" = some "PopDez Landing Page" ∧
    objGet (viewContentData env) "content_category" = some "Gaming Landing" ∧
    objGet (viewContentData env) "content_type" = some "product" ∧
    objGet (viewContentData env) "currency" = some "BRL" ∧
    objGet (viewContentData env) "traffic_source" = some (primarySource env) ∧
    objGet (viewContentData env) "source_name"
      = some (sourceDetailsName (primarySource env)) ∧
    objGet (leadData env scrollFirst) "content_name" = some "PopDez Interest" ∧
    objGet (leadData env scrollFirst) "content_category" = some "Gaming Lead" ∧
    objGet (leadData env scrollFirst) "currency" = some "BRL" ∧
    objGet (leadData env scrollFirst) "traffic_source" = some (primarySource env) ∧
    objGet (leadData env scrollFirst) "source_name"
      = some (sourceDetailsName (primarySource env)) ∧
    objGet (leadData env scrollFirst) "engagement_type"
      = some (if scrollFirst then "scroll" else "time") ∧
    objGet (addToCartData env) "content_name" = some "PopDez Bonus Exclusivo" ∧
    objGet (addToCartData env) "content_category" = some "Gaming Bonus" ∧
    objGet (addToCartData env) "content_type" = some "product" ∧
    objGet (addToCartData env) "currency" = some "BRL" ∧
    objGet (addToCartData env) "value" = some "1.00" ∧
    objGet (addToCartData env) "conversion_step" = some "cta_click" ∧
    objGet (addToCartData env) "traffic_source" = some (primarySource env) ∧
    objGet (addToCartData env) "source_name"
      = some (sourceDetailsName (primarySource env)) := by
  have hvc : ∀ k, (∀ x ∈ utmUniverse, (x == k) = false) →
      objGet (viewContentData env) k = objGet (viewContentFixed env) k :=
    fun k hk => objGet_payload_fixed env (viewContentFixed env) k hk
  have hld : ∀ k, (∀ x ∈ utmUniverse, (x == k) = false) →
      objGet (leadData env scrollFirst) k = objGet (leadFixed env scrollFirst) k :=
    fun k hk => objGet_payload_fixed env (leadFixed env scrollFirst) k hk
  have hac : ∀ k, (∀ x ∈ utmUniverse, (x == k) = false) →
      objGet (addToCartData env) k = objGet (addToCartFixed env) k :=
    fun k hk => objGet_payload_fixed env (addToCartFixed env) k hk
  refine ⟨?_, ?_, ?_, ?_, ?_, ?_, ?_, ?_, ?_, ?_, ?_, ?_, ?_, ?_, ?_, ?_, ?_, ?_, ?_, ?_⟩
  · exact (hvc "content_name" (by decide)).trans rfl
  · exact (hvc "content_category" (by decide)).trans rfl
  · exact (hvc "content_type" (by decide)).trans rfl
  · exact (hvc "currency" (by decide)).trans rfl
  · exact (hvc "traffic_source" (by decide)).trans rfl
  · exact (hvc "source_name" (by decide)).trans rfl
  · exact (hld "content_name" (by decide)).trans rfl
  · exact (hld "content_category" (by decide)).trans rfl
  · exact (hld "currency" (by decide)).trans rfl
  · exact (hld "traffic_source" (by decide)).trans rfl
  · exact (hld "source_name" (by decide)).trans rfl
  · exact (hld "engagement_type" (by decide)).trans rfl
  · exact (hac "content_name" (by decide)).trans rfl
  · exact (hac "content_category" (by decide)).trans rfl
  · exact (hac "content_type" (by decide)).trans rfl
  · exact (hac "currency" (by decide)).trans rfl
  · exact (hac "value" (by decide)).trans rfl
  · exact (hac "conversion_step" (by decide)).trans rfl
  · exact (hac "traffic_source" (by decide)).trans rfl
  · exact (hac "source_name" (by decide)).trans rfl

/-- Helper: after the UTM collection fold, lookup of a key gives the source
page value when the key is listed and present, and the accumulator value
otherwise. -/
theorem objGet_utmCollectFold (search : List (String × String)) :
    ∀ (ks : List String) (acc : List (String × String)) (k : String),
    objGet (ks.foldl (utmCollectStep search) acc) k
      = (if (ks.contains k && paramsHas search k) = true
         then some ((paramsGet search k).getD "")
         else objGet acc k) := by
  intro ks
  induction ks with
  | nil =>
    intro acc k
    simp
  | cons key ks ih =>
    intro acc k
    simp only [List.foldl_cons]
    rw [ih (utmCollectStep search acc key) k]
    by_cases hs : paramsHas search k = true
    · by_cases hkk : (k == key) = true
      · have hkey : k = key := eq_of_beq hkk
        subst hkey
        have hstep : utmCollectStep search acc k
            = objInsert acc k ((paramsGet search k).getD "") := by
          unfold utmCollectStep
          rw [if_pos hs]
        have c2 : ((k :: ks).contains k && paramsHas search k) = true := by
          rw [List.contains_cons, hs]
          simp
        rw [if_pos c2]
        by_cases hc : ks.contains k = true
        · have c1 : (ks.contains k && paramsHas search k) = true := by
            rw [hc, hs]
            rfl
          rw [if_pos c1]
        · have hc' : ks.contains k = false := by simpa using hc
          have c1 : (ks.contains k && paramsHas search k) = false := by
            rw [hc']
            simp
          rw [if_neg (by rw [c1] ; exact Bool.false_ne_true), hstep]
          exact objGet_objInsert_self acc k ((paramsGet search k).getD "")
      · have hkk' : (k == key) = false := by simpa using hkk
        have hne : (key == k) = false := by
          rw [show (key == k) = (k == key) from Bool.beq_comm]
          exact hkk'
        have hstep : objGet (utmCollectStep search acc key) k = objGet acc k := by
          unfold utmCollectStep
          by_cases hsk : paramsHas search key = true
          · rw [if_pos hsk]
            exact objGet_objInsert_ne acc key _ k hne
          · rw [if_neg hsk]
        rw [hstep]
        have hcc : (key :: ks).contains k = ks.contains k := by
          rw [List.contains_cons, hkk', Bool.false_or]
        rw [hcc]
    · have hs' : paramsHas search k = false := by simpa using hs
      have hstep : objGet (utmCollectStep search acc key) k = objGet acc k := by
        unfold utmCollectStep
        by_cases hsk : paramsHas search key = true
        · rw [if_pos hsk]
          by_cases hkk : (key == k) = true
          · have hkey : key = k := eq_of_beq hkk
            subst hkey
            exact absurd hsk (by simp [hs'])
          · have hkk' : (key == k) = false := by simpa using hkk
            exact objGet_objInsert_ne acc key _ k hkk'
        · rw [if_neg hsk]
      rw [hstep]
      have c1 : (ks.contains k && paramsHas search k) = false := by
        rw [hs']
        simp
      have c2 : ((key :: ks).contains k && paramsHas search k) = false := by
        rw [hs']
        simp
      rw [if_neg (by rw [c1] ; exact Bool.false_ne_true), if_neg (by rw [c2] ; exact Bool.false_ne_true)]

/-- Helper: the utm_source entry of getUtmParameters comes either straight
from the query string or from referrer auto-detection, which only ever
writes instagram, facebook or livestream. -/
theorem getUtm_source_spec (env : PageEnv) :
    objGet (getUtmParameters env) "utm_source"
        = (if paramsHas env.search "utm_source" = true
           then some ((paramsGet env.search "utm_source").getD "")
           else none)
    ∨ objGet (getUtmParameters env) "utm_source" = some "instagram"
    ∨ objGet (getUtmParameters env) "utm_source" = some "facebook"
    ∨ objGet (getUtmParameters env) "utm_source" = some "livestream" := by
  have hts : ∀ m : List (String × String),
      objGet (addTimestamp m env.timestamp) "utm_source" = objGet m "utm_source" := by
    intro m
    unfold addTimestamp
    by_cases hl : 0 < m.length
    · rw [if_pos hl]
      exact objGet_objInsert_ne m "tracking_timestamp" env.timestamp "utm_source" (by decide)
    · rw [if_neg hl]
  have hbase : objGet (utmBase env.search) "utm_source"
      = (if paramsHas env.search "utm_source" = true
         then some ((paramsGet env.search "utm_source").getD "")
         else none) := by
    unfold utmBase
    rw [objGet_utmCollectFold]
    simp only [show utmKeys.contains "utm_source" = true from by decide, Bool.true_and]
    rfl
  have hmain : objGet (getUtmParameters env) "utm_source"
      = objGet (autoDetect (utmBase env.search) env.referrer) "utm_source" :=
    hts (autoDetect (utmBase env.search) env.referrer)
  rw [hmain]
  unfold autoDetect
  by_cases ht : jsTruthy (objGet (utmBase env.search) "utm_source") = true
  · rw [if_pos ht]
    exact Or.inl hbase
  · rw [if_neg ht]
    by_cases hig : (strContains (jsToLower env.referrer) "instagram.com"
        || strContains (jsToLower env.referrer) "ig.me") = true
    · rw [if_pos hig]
      refine Or.inr (Or.inl ?_)
      unfold setMediumDefault
      rw [objGet_objInsert_ne _ "utm_medium" _ "utm_source" (by decide)]
      exact objGet_objInsert_self _ "utm_source" "instagram"
    · rw [if_neg hig]
      by_cases hfb : (strContains (jsToLower env.referrer) "facebook.com"
          || strContains (jsToLower env.referrer) "fb.me") = true
      · rw [if_pos hfb]
        refine Or.inr (Or.inr (Or.inl ?_))
        unfold setMediumDefault
        rw [objGet_objInsert_ne _ "utm_medium" _ "utm_source" (by decide)]
        exact objGet_objInsert_self _ "utm_source" "facebook"
      · rw [if_neg hfb]
        by_cases hyt : (strContains (jsToLower env.referrer) "youtube.com"
            || strContains (jsToLower env.referrer) "twitch.tv"
            || strContains (jsToLower env.referrer) "live") = true
        · rw [if_pos hyt]
          refine Or.inr (Or.inr (Or.inr ?_))
          unfold setMediumDefault
          rw [objGet_objInsert_ne _ "utm_medium" _ "utm_source" (by decide)]
          exact objGet_objInsert_self _ "utm_source" "livestream"
        · rw [if_neg hyt]
          exact Or.inl hbase

/-- C4 (amended): the primarySource classification is one of the five spec
values direct, instagram, facebook, livestream, referral, or else it is the
lowercased value of the utm_source parameter the page itself supplied. -/
theorem traffic_source_classification (env : PageEnv) :
    primarySource env ∈ specSources ∨
    primarySource env = jsToLower ((paramsGet env.search "utm_source").getD "") := by
  unfold primarySource
  by_cases ht : jsTruthy (objGet (getUtmParameters env) "utm_source") = true
  · rw [if_pos ht]
    rcases getUtm_source_spec env with h | h | h | h
    · rw [h] at ht ⊢
      by_cases hs : paramsHas env.search "utm_source" = true
      · rw [if_pos hs]
        exact Or.inr rfl
      · rw [if_neg hs] at ht
        exact absurd ht (by simp [jsTruthy])
    · rw [h]
      exact Or.inl (by decide)
    · rw [h]
      exact Or.inl (by decide)
    · rw [h]
      exact Or.inl (by decide)
  · rw [if_neg ht]
    refine Or.inl ?_
    by_cases h1 : (env.referrer == "") = true
    · rw [if_pos h1]
      decide
    · rw [if_neg h1]
      by_cases h2 : strContains env.referrer "instagram" = true
      · rw [if_pos h2]
        decide
      · rw [if_neg h2]
        by_cases h3 : strContains env.referrer "facebook" = true
        · rw [if_pos h3]
          decide
        · rw [if_neg h3]
          by_cases h4 : (strContains env.referrer "youtube"
              || strContains env.referrer "twitch") = true
          · rw [if_pos h4]
            decide
          · rw [if_neg h4]
            decide

/-- Counterexample to C4 as stated: an explicit utm_source the page
supplies flows through unchanged, so the classification can fall outside
the five spec values. -/
theorem traffic_source_counterexample :
    primarySource envNewsletter = "newsletter" ∧
    primarySource envNewsletter ∉ specSources := by
  decide
